import Mathlib

/-!
Shallow embedding of the sampling/reconciliation core of the
golang-system-monitor-tui repository, together with proofs of the
behavioural claims about it.

Conventions of the embedding:
* Go `float64` quantities (usage percentages, byte rates, second-valued
  time differences) are modelled as `ℚ`; Go floating-point division is
  modelled as exact rational division.
* Go `uint64` counters are modelled as `ℕ` (the source only ever
  subtracts them under an explicit `current >= previous` guard, so no
  wraparound arithmetic occurs in the guarded branch).
* Go `int` values (widths, heights, core counts) are modelled as `ℤ`;
  Go integer division (truncation toward zero) is modelled by `Int.tdiv`.
* Go `time.Time` timestamps are modelled as `ℚ` (seconds);
  `t1.Sub(t0).Seconds()` becomes `t1 - t0`.  The impure `time.Now()`
  calls inside `Update` methods are modelled by threading an explicit
  `now` argument.
* Go `map[string]V` values are modelled as functions `String → Option V`;
  map assignment is pointwise functional update, so a later assignment
  to the same key overwrites an earlier one, exactly as in Go.
* `lipgloss` styling wraps text in terminal escape sequences without
  changing its textual content; the `Render…` helpers are therefore
  modelled as returning their text argument unchanged.
* `tea.Cmd` values are modelled by the inductive type `Cmd`; component
  `Update` methods, which always return a `nil` command in the source,
  are modelled as returning just the new model.
-/

/-- Go truncated integer division, the semantics of the `/` operator on
Go `int` values (rounds toward zero). -/
def goDiv (a b : Int) : Int := Int.tdiv a b

/-- Model of `models.CPUInfo` (models/system_info.go). -/
structure CPUInfo where
  Cores : Int
  Usage : List ℚ
  Total : ℚ
  Timestamp : ℚ
deriving DecidableEq

/-- Model of `models.SwapInfo` (models/system_info.go). -/
structure SwapInfo where
  Total : ℕ
  Used : ℕ
  Free : ℕ
deriving DecidableEq

/-- Model of `models.MemoryInfo` (models/system_info.go). -/
structure MemoryInfo where
  Total : ℕ
  Used : ℕ
  Available : ℕ
  Swap : SwapInfo
  Timestamp : ℚ
deriving DecidableEq

/-- Model of `models.DiskInfo` (models/system_info.go). -/
structure DiskInfo where
  Device : String
  Mountpoint : String
  Filesystem : String
  Total : ℕ
  Used : ℕ
  Available : ℕ
  UsedPercent : ℚ
deriving DecidableEq

/-- Model of `models.NetworkInfo` (models/system_info.go). -/
structure NetworkInfo where
  Interface : String
  BytesSent : ℕ
  BytesRecv : ℕ
  PacketsSent : ℕ
  PacketsRecv : ℕ
  Timestamp : ℚ
deriving DecidableEq

/-- Model of `models.NetworkStats` (models/system_info.go): calculated
send/receive rates in bytes per second. -/
structure NetworkStats where
  SendRate : ℚ
  RecvRate : ℚ
deriving DecidableEq

/-- Model of `models.ErrorType` (error taxonomy). -/
inductive ErrorType where
  | SystemAccessError
  | DataCollectionError
  | RenderError
  | PermissionError
  | TemporaryError
deriving DecidableEq

/-- Model of `models.SystemError` / `models.ErrorMsg`: a typed error
carrying the name of the component it belongs to.  The wrapped Go
`error` value (`Original`) carries no behaviour used by the reducer and
is omitted.  The source field `Type` is rendered `errType` because
`Type` is reserved in Lean. -/
structure SystemError where
  errType : ErrorType
  Message : String
  Component : String
  Timestamp : ℚ
deriving DecidableEq

/-- Closed event-variant type decoded at the reducer boundary: the
`tea.Msg` values dispatched by `MainModel.Update` and the component
`Update` methods (update messages for the four resources, a typed error
message, key presses, window resizes and ticker ticks). -/
inductive Msg where
  | cpuUpdateMsg (info : CPUInfo)
  | memoryUpdateMsg (info : MemoryInfo)
  | diskUpdateMsg (info : List DiskInfo)
  | networkUpdateMsg (info : List NetworkInfo)
  | errorMsg (e : SystemError)
  | key (k : String)
  | resize (w h : Int)
  | tick

/-- Model of `tea.Cmd` values produced by `MainModel.Update`: the four
per-resource collection commands, the ticker command (carrying the
update interval it was scheduled with), `tea.Quit`, and `tea.Batch`. -/
inductive Cmd where
  | collectCPU
  | collectMemory
  | collectDisk
  | collectNetwork
  | tick (interval : ℚ)
  | quit
  | batch (cs : List Cmd)

/-- Model of `ui.FocusedComponent` (main_model.go). -/
inductive FocusedComponent where
  | FocusCPU
  | FocusMemory
  | FocusDisk
  | FocusNetwork
deriving DecidableEq

export FocusedComponent (FocusCPU FocusMemory FocusDisk FocusNetwork)

/-- Model of `ui.KeyMap` (main_model.go). -/
structure KeyMap where
  Up : List String
  Down : List String
  Left : List String
  Right : List String
  Tab : List String
  ShiftTab : List String
  Quit : List String
  Refresh : List String
  Help : List String
deriving DecidableEq

/-- Model of `ui.DefaultKeyMap` (main_model.go). -/
def DefaultKeyMap : KeyMap where
  Up := ["up", "k"]
  Down := ["down", "j"]
  Left := ["left", "h"]
  Right := ["right", "l"]
  Tab := ["tab"]
  ShiftTab := ["shift+tab"]
  Quit := ["q", "ctrl+c"]
  Refresh := ["r"]
  Help := ["?", "h"]

/-- Model of `MainModel.containsKey` (main_model.go): linear scan of a
key list for an exact string match. -/
def containsKey : List String → String → Bool
  | [], _ => false
  | x :: xs, k => if x = k then true else containsKey xs k

/-- Model of `MainModel.nextFocus` (main_model.go): forward focus cycle
CPU → Memory → Disk → Network → CPU. -/
def nextFocus : FocusedComponent → FocusedComponent
  | FocusCPU => FocusMemory
  | FocusMemory => FocusDisk
  | FocusDisk => FocusNetwork
  | FocusNetwork => FocusCPU

/-- Model of `MainModel.prevFocus` (main_model.go): backward focus
cycle. -/
def prevFocus : FocusedComponent → FocusedComponent
  | FocusCPU => FocusNetwork
  | FocusMemory => FocusCPU
  | FocusDisk => FocusMemory
  | FocusNetwork => FocusDisk

/-- Model of `MainModel.downFocus` (main_model.go): top row moves to the
bottom row, bottom row stays put. -/
def downFocus : FocusedComponent → FocusedComponent
  | FocusCPU => FocusDisk
  | FocusMemory => FocusNetwork
  | FocusDisk => FocusDisk
  | FocusNetwork => FocusNetwork

/-- Model of `MainModel.upFocus` (main_model.go): bottom row moves to
the top row, top row stays put. -/
def upFocus : FocusedComponent → FocusedComponent
  | FocusCPU => FocusCPU
  | FocusMemory => FocusMemory
  | FocusDisk => FocusCPU
  | FocusNetwork => FocusMemory

/-- Model of `StyleManager.IsSmallTerminal` (styles.go). -/
def IsSmallTerminal (width height : Int) : Bool :=
  width < 80 || height < 24

/-- The two presentations `StyleManager.RenderResponsiveLayout` can
choose between (styles.go): the 2x2 grid of `render2x2Layout`, or the
vertical stack of non-empty panels of `renderVerticalLayout`. -/
inductive LayoutKind where
  | Grid2x2
  | Stacked
deriving DecidableEq

/-- The branch taken by `StyleManager.RenderResponsiveLayout`
(styles.go): small terminals get the stacked layout, all others the 2x2
grid. -/
def responsiveLayoutKind (width height : Int) : LayoutKind :=
  if IsSmallTerminal width height then LayoutKind.Stacked else LayoutKind.Grid2x2

/-- Model of `StyleManager.CalculateComponentDimensions` (styles.go),
parameterised by the terminal dimensions stored on the style manager:
subtract
a fixed allowance, halve, and clamp to the 30x8 floor. -/
def CalculateComponentDimensions (width height : Int) : Int × Int :=
  let availableWidth := width - 6
  let availableHeight := height - 6
  let componentWidth := goDiv availableWidth 2
  let componentHeight := goDiv availableHeight 2
  let componentWidth := if componentWidth < 30 then 30 else componentWidth
  let componentHeight := if componentHeight < 8 then 8 else componentHeight
  (componentWidth, componentHeight)

/-- The `prevMap` built at the top of `calculateRates`
(ui/network_model.go) and `GopsutilCollector.CalculateNetworkRates`
(services/collector.go): a Go map from interface name to the previous
measurement, assignments applied in list order so a later duplicate name
overwrites an earlier one. -/
def buildPrevMap (previous : List NetworkInfo) : String → Option NetworkInfo :=
  previous.foldl (fun m prev => fun k => if k = prev.Interface then some prev else m k)
    (fun _ => none)

/-- Model of `NetworkModel.calculateRates` (ui/network_model.go, lines
155-194); `GopsutilCollector.CalculateNetworkRates`
(services/collector.go) has the identical body and is embedded by this
same definition.  For every current entry whose interface also appears
in the previous snapshot and whose timestamp difference is positive, the
per-direction rate is the counter delta divided by the time difference
when the counter did not decrease, and exactly 0 on an apparent counter
rollover; entries failing the lookup or with non-positive time
difference contribute nothing. -/
def calculateRates (previous current : List NetworkInfo) : String → Option NetworkStats :=
  let prevMap := buildPrevMap previous
  current.foldl
    (fun rates curr =>
      match prevMap curr.Interface with
      | some prev =>
        let timeDiff : ℚ := curr.Timestamp - prev.Timestamp
        if 0 < timeDiff then
          let sendRate : ℚ :=
            if prev.BytesSent ≤ curr.BytesSent
              then ((curr.BytesSent - prev.BytesSent : ℕ) : ℚ) / timeDiff else 0
          let recvRate : ℚ :=
            if prev.BytesRecv ≤ curr.BytesRecv
              then ((curr.BytesRecv - prev.BytesRecv : ℕ) : ℚ) / timeDiff else 0
          fun k => if k = curr.Interface
            then some { SendRate := sendRate, RecvRate := recvRate } else rates k
        else rates
      | none => rates)
    (fun _ => none)

/-- Model of `ui.CPUModel` (cpu_model.go).  Rendering-only style state is
not part of the model; see the header comment. -/
structure CPUModel where
  usage : List ℚ
  history : List (List ℚ)
  total : ℚ
  cores : Int
  maxHistory : ℕ
  lastUpdate : ℚ
  width : Int
  height : Int
  hasError : Bool
  errorMessage : String
  lastError : ℚ
deriving DecidableEq

/-- Model of `ui.NewCPUModel` (cpu_model.go); the wall-clock
`lastUpdate` initial value is taken as 0. -/
def NewCPUModel : CPUModel where
  usage := []
  history := []
  total := 0
  cores := 0
  maxHistory := 60
  lastUpdate := 0
  width := 40
  height := 10
  hasError := false
  errorMessage := ""
  lastError := 0

/-- One iteration of the per-core history loop in `CPUModel.Update`
(cpu_model.go): append the new sample, then drop the oldest entry if the
row exceeds `maxHistory`. -/
def pushHistory (row : List ℚ) (u : ℚ) (maxHistory : ℕ) : List ℚ :=
  let r := row ++ [u]
  if maxHistory < r.length then r.tail else r

/-- The indexed loop `for i, usage := range m.usage` of `CPUModel.Update`
(cpu_model.go): row `i` of the history receives sample `i` of the usage
list when both exist; extra rows are left alone and extra samples are
ignored (the `i < len(m.history)` guard). -/
def updateHist : List (List ℚ) → List ℚ → ℕ → List (List ℚ)
  | hist, [], _ => hist
  | [], _ :: _, _ => []
  | row :: rest, u :: us, maxHistory => pushHistory row u maxHistory :: updateHist rest us maxHistory

/-- Model of `CPUModel.Update` (cpu_model.go): a successful update
clears the error state, replaces the usage data and pushes the new
per-core samples onto the bounded history; an error message for the
`CPU` component records the error; all other messages are ignored. -/
def cpuUpdate (m : CPUModel) : Msg → CPUModel
  | Msg.cpuUpdateMsg info =>
    let m1 := { m with
      hasError := false
      errorMessage := ""
      usage := info.Usage
      total := info.Total
      cores := info.Cores
      lastUpdate := info.Timestamp }
    if 0 < m1.usage.length then
      let hist0 := if m1.history.length = 0
        then List.replicate m1.usage.length ([] : List ℚ) else m1.history
      { m1 with history := updateHist hist0 m1.usage m1.maxHistory }
    else m1
  | Msg.errorMsg e =>
    if e.Component = "CPU" then
      { m with hasError := true, errorMessage := e.Message, lastError := e.Timestamp }
    else m
  | _ => m

/-- Model of `ui.MemoryModel` (memory_model.go). -/
structure MemoryModel where
  total : ℕ
  used : ℕ
  available : ℕ
  swap : SwapInfo
  lastUpdate : ℚ
  width : Int
  height : Int
  hasError : Bool
  errorMessage : String
  lastError : ℚ
deriving DecidableEq

/-- Model of `ui.NewMemoryModel` (memory_model.go). -/
def NewMemoryModel : MemoryModel where
  total := 0
  used := 0
  available := 0
  swap := { Total := 0, Used := 0, Free := 0 }
  lastUpdate := 0
  width := 40
  height := 8
  hasError := false
  errorMessage := ""
  lastError := 0

/-- Model of `MemoryModel.Update` (memory_model.go). -/
def memoryUpdate (m : MemoryModel) : Msg → MemoryModel
  | Msg.memoryUpdateMsg info =>
    { m with
      hasError := false
      errorMessage := ""
      total := info.Total
      used := info.Used
      available := info.Available
      swap := info.Swap
      lastUpdate := info.Timestamp }
  | Msg.errorMsg e =>
    if e.Component = "Memory" then
      { m with hasError := true, errorMessage := e.Message, lastError := e.Timestamp }
    else m
  | _ => m

/-- Model of `ui.DiskModel` (disk_model.go). -/
structure DiskModel where
  filesystems : List DiskInfo
  lastUpdate : ℚ
  width : Int
  height : Int
  hasError : Bool
  errorMessage : String
  lastError : ℚ
deriving DecidableEq

/-- Model of `ui.NewDiskModel` (disk_model.go). -/
def NewDiskModel : DiskModel where
  filesystems := []
  lastUpdate := 0
  width := 50
  height := 10
  hasError := false
  errorMessage := ""
  lastError := 0

/-- Model of `DiskModel.Update` (disk_model.go); `now` models the
`time.Now()` call recording the update time. -/
def diskUpdate (now : ℚ) (m : DiskModel) : Msg → DiskModel
  | Msg.diskUpdateMsg info =>
    { m with
      hasError := false
      errorMessage := ""
      filesystems := info
      lastUpdate := now }
  | Msg.errorMsg e =>
    if e.Component = "Disk" then
      { m with hasError := true, errorMessage := e.Message, lastError := e.Timestamp }
    else m
  | _ => m

/-- Model of `ui.NetworkModel` (ui/network_model.go).  The `rates` Go
map is modelled as a lookup function. -/
structure NetworkModel where
  interfaces : List NetworkInfo
  previousData : List NetworkInfo
  rates : String → Option NetworkStats
  lastUpdate : ℚ
  width : Int
  height : Int
  hasError : Bool
  errorMessage : String
  lastError : ℚ

/-- Model of `ui.NewNetworkModel` (ui/network_model.go). -/
def NewNetworkModel : NetworkModel where
  interfaces := []
  previousData := []
  rates := fun _ => none
  lastUpdate := 0
  width := 50
  height := 10
  hasError := false
  errorMessage := ""
  lastError := 0

/-- Model of `NetworkModel.Update` (ui/network_model.go, lines 50-78): a
successful update clears the error state, shifts the current interfaces
into `previousData`, stores the new interfaces, and recomputes the
transfer rates when previous data exists. -/
def networkUpdate (now : ℚ) (m : NetworkModel) : Msg → NetworkModel
  | Msg.networkUpdateMsg info =>
    let m1 := { m with hasError := false, errorMessage := "" }
    let m2 := { m1 with previousData := m1.interfaces }
    let m3 := { m2 with interfaces := info, lastUpdate := now }
    if 0 < m3.previousData.length then
      { m3 with rates := calculateRates m3.previousData m3.interfaces }
    else m3
  | Msg.errorMsg e =>
    if e.Component = "Network" then
      { m with hasError := true, errorMessage := e.Message, lastError := e.Timestamp }
    else m
  | _ => m

/-- Model of `CPUModel.SetSize` (cpu_model.go). -/
def cpuSetSize (m : CPUModel) (w h : Int) : CPUModel := { m with width := w, height := h }

/-- Model of `MemoryModel.SetSize` (memory_model.go). -/
def memorySetSize (m : MemoryModel) (w h : Int) : MemoryModel := { m with width := w, height := h }

/-- Model of `DiskModel.SetSize` (disk_model.go). -/
def diskSetSize (m : DiskModel) (w h : Int) : DiskModel := { m with width := w, height := h }

/-- Model of `NetworkModel.SetSize` (ui/network_model.go). -/
def networkSetSize (m : NetworkModel) (w h : Int) : NetworkModel := { m with width := w, height := h }

/-- Model of `ui.MainModel` (main_model.go).  The style manager holds
only presentation state mirrored from `width`/`height`, the collector is
an external capability, and the ticker pointer is runtime plumbing; none
of them carries reducer-visible state beyond what is already here. -/
structure MainModel where
  cpu : CPUModel
  memory : MemoryModel
  disk : DiskModel
  network : NetworkModel
  focused : FocusedComponent
  keys : KeyMap
  width : Int
  height : Int
  showHelp : Bool
  updateInterval : ℚ

/-- Model of `ui.NewMainModel` (main_model.go): default 80x24 viewport,
CPU focused, help hidden, 1-second update interval. -/
def NewMainModel : MainModel where
  cpu := NewCPUModel
  memory := NewMemoryModel
  disk := NewDiskModel
  network := NewNetworkModel
  focused := FocusCPU
  keys := DefaultKeyMap
  width := 80
  height := 24
  showHelp := false
  updateInterval := 1

/-- Model of `MainModel.updateComponentSizes` (main_model.go, lines
829-839): derive per-panel sizes from the viewport with Go integer
division.  Note: this path applies no 30x8 floor. -/
def updateComponentSizes (m : MainModel) : MainModel :=
  let componentWidth := goDiv (m.width - 3) 2
  let componentHeight := goDiv (m.height - 4) 2
  { m with
    cpu := cpuSetSize m.cpu componentWidth componentHeight
    memory := memorySetSize m.memory componentWidth componentHeight
    disk := diskSetSize m.disk componentWidth componentHeight
    network := networkSetSize m.network componentWidth componentHeight }

/-- Model of `MainModel.collectAllDataCmd` (main_model.go, lines
964-972): a batch of the four per-resource collection commands. -/
def collectAllDataCmd : Cmd :=
  Cmd.batch [Cmd.collectCPU, Cmd.collectMemory, Cmd.collectDisk, Cmd.collectNetwork]

/-- Model of `MainModel.tickCmd` (main_model.go): schedule the next tick
after the configured update interval. -/
def tickCmd (m : MainModel) : Cmd := Cmd.tick m.updateInterval

/-- Model of `MainModel.Update` (main_model.go, lines 677-764), the
reducer: window resizes store the new viewport and resize the panels;
keys are dispatched through the key map in source order (quit, help,
refresh, tab, shift+tab, right, left, down, up); resource update and
error messages are forwarded to the owning component model; a tick
requests a fresh collection round and re-arms the ticker.  `now` models
the wall clock read by the disk/network component updates. -/
def mainUpdate (now : ℚ) (m : MainModel) : Msg → MainModel × Cmd
  | Msg.resize w h =>
    let m1 := { m with width := w, height := h }
    (updateComponentSizes m1, Cmd.batch [])
  | Msg.key k =>
    if containsKey m.keys.Quit k then (m, Cmd.quit)
    else if containsKey m.keys.Help k then ({ m with showHelp := !m.showHelp }, Cmd.batch [])
    else if containsKey m.keys.Refresh k then (m, Cmd.batch [collectAllDataCmd])
    else if containsKey m.keys.Tab k then ({ m with focused := nextFocus m.focused }, Cmd.batch [])
    else if containsKey m.keys.ShiftTab k then ({ m with focused := prevFocus m.focused }, Cmd.batch [])
    else if containsKey m.keys.Right k then ({ m with focused := nextFocus m.focused }, Cmd.batch [])
    else if containsKey m.keys.Left k then ({ m with focused := prevFocus m.focused }, Cmd.batch [])
    else if containsKey m.keys.Down k then ({ m with focused := downFocus m.focused }, Cmd.batch [])
    else if containsKey m.keys.Up k then ({ m with focused := upFocus m.focused }, Cmd.batch [])
    else (m, Cmd.batch [])
  | Msg.cpuUpdateMsg info =>
    ({ m with cpu := cpuUpdate m.cpu (Msg.cpuUpdateMsg info) }, Cmd.batch [])
  | Msg.memoryUpdateMsg info =>
    ({ m with memory := memoryUpdate m.memory (Msg.memoryUpdateMsg info) }, Cmd.batch [])
  | Msg.diskUpdateMsg info =>
    ({ m with disk := diskUpdate now m.disk (Msg.diskUpdateMsg info) }, Cmd.batch [])
  | Msg.networkUpdateMsg info =>
    ({ m with network := networkUpdate now m.network (Msg.networkUpdateMsg info) }, Cmd.batch [])
  | Msg.tick =>
    (m, Cmd.batch [collectAllDataCmd, tickCmd m])
  | Msg.errorMsg e =>
    let m1 :=
      if e.Component = "CPU" then { m with cpu := cpuUpdate m.cpu (Msg.errorMsg e) }
      else if e.Component = "Memory" then { m with memory := memoryUpdate m.memory (Msg.errorMsg e) }
      else if e.Component = "Disk" then { m with disk := diskUpdate now m.disk (Msg.errorMsg e) }
      else if e.Component = "Network" then { m with network := networkUpdate now m.network (Msg.errorMsg e) }
      else m
    (m1, Cmd.batch [])

/-- Go `int(x)` conversion from `float64`, truncation toward zero,
modelled on `ℚ`. -/
def goInt (q : ℚ) : Int := Int.tdiv q.num (q.den : Int)

/-- Model of `strings.Repeat`. -/
def strRepeat (s : String) (n : ℕ) : String := String.join (List.replicate n s)

/-- Model of `lipgloss.PlaceHorizontal w Right s`: pad on the left with
spaces up to width `w` (cell-width subtleties of wide glyphs are out of
scope; padding is by character count). -/
def placeRight (w : ℕ) (s : String) : String :=
  strRepeat " " (w - s.length) ++ s

/-- Rendering of Go `fmt` `%.1f`: one decimal digit.  Go rounds halves
to even; the model rounds halves up, a difference only visible at exact
multiples of 0.05, which no claim exercises. -/
def formatFixed1 (x : ℚ) : String :=
  let n : Int := round (x * 10)
  let a : ℕ := n.natAbs
  (if n < 0 then "-" else "") ++ toString (a / 10) ++ "." ++ toString (a % 10)

/-- Model of `StyleManager.RenderHeader` (styles.go): styling changes
colour and weight only, so the text content is the title itself. -/
def RenderHeader (title : String) : String := title

/-- Model of `StyleManager.RenderErrorText` (styles.go), text content. -/
def RenderErrorText (text : String) : String := text

/-- Model of `StyleManager.RenderMutedText` (styles.go), text content. -/
def RenderMutedText (text : String) : String := text

/-- Model of `StyleManager.RenderPlaceholder` (styles.go), text
content: header line followed by the message. -/
def RenderPlaceholder (title message : String) : String := title ++ "\n" ++ message

/-- Model of `StyleManager.GetProgressBarWidth` (styles.go). -/
def GetProgressBarWidth (componentWidth labelWidth : Int) : Int :=
  let barWidth := componentWidth - labelWidth - 10
  if barWidth < 10 then 10 else barWidth

/-- Model of `StyleManager.RenderProgressBar` (styles.go): a bar of
filled and empty block characters proportional to the percentage,
optionally followed by the right-aligned percentage text.  The Go
`strings.Repeat` panics on a negative count; the model truncates the
counts at zero instead, which no claim exercises. -/
def RenderProgressBar (percentage : ℚ) (width : Int) (showPercentage : Bool) : String :=
  let width := if width ≤ 0 then 20 else width
  let filled := goInt (percentage / 100 * (width : ℚ))
  let filled := if width < filled then width else filled
  let bar := strRepeat "█" filled.toNat ++ strRepeat "░" (width - filled).toNat
  if showPercentage then
    bar ++ " " ++ placeRight 6 (formatFixed1 percentage ++ "%")
  else bar

/-- The spacing loop at the end of the component `View` methods: pad the
section list with empty lines up to the component height. -/
def padSections (sections : List String) (height : Int) : List String :=
  sections ++ List.replicate (height - (sections.length : Int)).toNat ""

/-- Model of `CPUModel.View` (cpu_model.go): error state renders an
explicit error line, an unavailability notice and `N/A` placeholders
(never the stored numbers); an empty core count renders the loading
placeholder; otherwise the total and per-core usage render as progress
bars. -/
def cpuView (m : CPUModel) : String :=
  if m.hasError then
    String.intercalate "\n" (padSections
      [RenderHeader "CPU Usage",
       RenderErrorText ("Error: " ++ m.errorMessage),
       RenderMutedText "CPU data unavailable",
       "Total: N/A",
       "Cores: N/A"] m.height)
  else if m.cores = 0 then
    RenderPlaceholder "CPU Usage" "Loading CPU data..."
  else
    let totalBar := RenderProgressBar m.total (GetProgressBarWidth m.width 8) false
    let totalLine := "Total: " ++ totalBar ++ " " ++ formatFixed1 m.total ++ "%"
    let coreLines := (List.range m.usage.length).zip m.usage |>.map (fun iu =>
      let coreBar := RenderProgressBar iu.2 (GetProgressBarWidth m.width 10) false
      "Core " ++ toString (iu.1 + 1) ++ ": " ++ coreBar ++ " " ++ formatFixed1 iu.2 ++ "%")
    String.intercalate "\n" (padSections
      (RenderHeader "CPU Usage" :: totalLine :: coreLines) m.height)

/-- The contribution of one current-snapshot entry to the rate map of
`calculateRates`: the rate sample computed against the previous
snapshot, or `none` when the interface is new or the time difference is
not positive. -/
def rateFor (previous : List NetworkInfo) (curr : NetworkInfo) : Option NetworkStats :=
  match buildPrevMap previous curr.Interface with
  | some prev =>
    let timeDiff : ℚ := curr.Timestamp - prev.Timestamp
    if 0 < timeDiff then
      some { SendRate :=
              if prev.BytesSent ≤ curr.BytesSent
                then ((curr.BytesSent - prev.BytesSent : ℕ) : ℚ) / timeDiff else 0
             RecvRate :=
              if prev.BytesRecv ≤ curr.BytesRecv
                then ((curr.BytesRecv - prev.BytesRecv : ℕ) : ℚ) / timeDiff else 0 }
    else none
  | none => none

/-- Reformulation of the rate map of `calculateRates` at a single key:
the rate of the last current-snapshot entry with that interface name
that produced one (later Go map assignments overwrite earlier ones). -/
def lastRated (previous current : List NetworkInfo) (n : String) : Option NetworkStats :=
  current.foldl
    (fun acc curr =>
      if curr.Interface = n then
        match rateFor previous curr with
        | some v => some v
        | none => acc
      else acc)
    none

/-- Previous-round measurement of the rate scenario from the spec (one tick
earlier, cumulative counters 1,000,000 sent / 2,000,000 received). -/
def ethPrev : NetworkInfo :=
  { Interface := "eth0", BytesSent := 1000000, BytesRecv := 2000000
    PacketsSent := 10, PacketsRecv := 20, Timestamp := 100 }

/-- Current-round measurement of the rate scenario from the spec (1 second
later, 1024 more bytes sent and 2048 more received). -/
def ethCurr : NetworkInfo :=
  { Interface := "eth0", BytesSent := 1001024, BytesRecv := 2002048
    PacketsSent := 11, PacketsRecv := 22, Timestamp := 101 }

/-- A CPU model holding previously collected data, used to instantiate
the error-retention theorem. -/
def cpuModelSample : CPUModel :=
  { usage := [25, 75], history := [[25], [75]], total := 50, cores := 2
    maxHistory := 60, lastUpdate := 5, width := 40, height := 8
    hasError := false, errorMessage := "", lastError := 0 }

/-- A typed CPU sampling error, used to instantiate the error
theorems. -/
def cpuErrSample : SystemError :=
  { errType := ErrorType.PermissionError, Message := "permission denied"
    Component := "CPU", Timestamp := 6 }

/-- A one-core CPU sample, used to instantiate the history-bound
theorem. -/
def cpuInfoSample : CPUInfo :=
  { Cores := 1, Usage := [5], Total := 5, Timestamp := 0 }

/-- C5: the forward focus cycle is the 4-cycle CPU, Memory, Disk,
Network, CPU (five consecutive forward steps from CPU visit exactly that
sequence, and four applications return to the start from any focus), and
the backward cycle is its exact inverse in both compositions. -/
theorem focus_cycle_inverse_and_period :
    (∀ f, prevFocus (nextFocus f) = f) ∧
    (∀ f, nextFocus (prevFocus f) = f) ∧
    (∀ f, nextFocus (nextFocus (nextFocus (nextFocus f))) = f) ∧
    [FocusCPU, nextFocus FocusCPU, nextFocus (nextFocus FocusCPU),
        nextFocus (nextFocus (nextFocus FocusCPU)),
        nextFocus (nextFocus (nextFocus (nextFocus FocusCPU)))] =
      [FocusCPU, FocusMemory, FocusDisk, FocusNetwork, FocusCPU] :=
  ⟨fun f => by cases f <;> rfl, fun f => by cases f <;> rfl,
   fun f => by cases f <;> rfl, rfl⟩

/-- C6: vertical focus moves clamp instead of wrapping: down maps
CPU to Disk and Memory to Network and fixes the bottom row; up maps
Disk to CPU and Network to Memory and fixes the top row. -/
theorem focus_vertical_clamps :
    downFocus FocusCPU = FocusDisk ∧ downFocus FocusMemory = FocusNetwork ∧
    downFocus FocusDisk = FocusDisk ∧ downFocus FocusNetwork = FocusNetwork ∧
    upFocus FocusDisk = FocusCPU ∧ upFocus FocusNetwork = FocusMemory ∧
    upFocus FocusCPU = FocusCPU ∧ upFocus FocusMemory = FocusMemory :=
  ⟨rfl, rfl, rfl, rfl, rfl, rfl, rfl, rfl⟩

/-- C7: the responsive layout selector chooses the stacked presentation
exactly when the width is below 80 or the height below 24, and the 2x2
grid otherwise; in particular it stacks at 79x24, 80x23 and 60x20 and
uses the grid at 80x24 and 120x40. -/
theorem layout_threshold :
    (∀ width height : Int,
        responsiveLayoutKind width height = LayoutKind.Stacked ↔ (width < 80 ∨ height < 24)) ∧
    responsiveLayoutKind 79 24 = LayoutKind.Stacked ∧
    responsiveLayoutKind 80 23 = LayoutKind.Stacked ∧
    responsiveLayoutKind 60 20 = LayoutKind.Stacked ∧
    responsiveLayoutKind 80 24 = LayoutKind.Grid2x2 ∧
    responsiveLayoutKind 120 40 = LayoutKind.Grid2x2 := by
  refine ⟨fun width height => ?_, by decide, by decide, by decide, by decide, by decide⟩
  by_cases hsmall : width < 80 ∨ height < 24
  · have hb : IsSmallTerminal width height = true := by
      rcases hsmall with h | h <;> simp [IsSmallTerminal, h]
    simp [responsiveLayoutKind, hb, hsmall]
  · push_neg at hsmall
    have hb : IsSmallTerminal width height = false := by
      simp [IsSmallTerminal, not_lt.mpr hsmall.1, not_lt.mpr hsmall.2]
    simp only [responsiveLayoutKind, hb, Bool.false_eq_true, if_false]
    constructor
    · intro h; cases h
    · intro h
      rcases h with h | h
      · exact absurd h (not_lt.mpr hsmall.1)
      · exact absurd h (not_lt.mpr hsmall.2)

/-- C8 counterexample: the claim that the 30x8 per-panel floor is
enforced on every code path deriving panel sizes from the viewport,
including the resize-event path, is false: after a resize event to a
10x10 viewport the resize path of the reducer (`updateComponentSizes`) sets
the CPU panel width to 3, well below the 30-column floor. -/
theorem resize_path_violates_floor :
    ((mainUpdate 0 NewMainModel (Msg.resize 10 10)).1).cpu.width = 3 ∧ (3 : Int) < 30 :=
  ⟨rfl, by decide⟩

/-- C8 (amended): the 30-column by 8-row per-panel floor is enforced by
the grid-layout dimension calculator `CalculateComponentDimensions`
(the path used at render time) for every viewport, however small; the
resize-event path `updateComponentSizes` applies no such floor. -/
theorem componentDimensions_floor (width height : Int) :
    30 ≤ (CalculateComponentDimensions width height).1 ∧
    8 ≤ (CalculateComponentDimensions width height).2 := by
  unfold CalculateComponentDimensions
  dsimp only
  constructor <;> split <;> omega

/-- C8 witness: the amended floor theorem evaluated at the degenerate
1x1 viewport, where the calculator still reports a 30x8 panel. -/
theorem componentDimensions_floor_witness :
    30 ≤ (CalculateComponentDimensions 1 1).1 ∧ 8 ≤ (CalculateComponentDimensions 1 1).2 :=
  componentDimensions_floor 1 1

/-- C2: an error event is fully contained to the component it names:
the reducer leaves the other three component models (data and error
status alike) untouched, leaves focus, help, and viewport state
untouched, and rewrites only the named component, whose change is
exactly the recording of the error. -/
theorem error_event_isolated (now : ℚ) (m : MainModel) (e : SystemError) :
    ((mainUpdate now m (Msg.errorMsg e)).1).cpu =
      (if e.Component = "CPU"
        then { m.cpu with hasError := true, errorMessage := e.Message, lastError := e.Timestamp }
        else m.cpu) ∧
    ((mainUpdate now m (Msg.errorMsg e)).1).memory =
      (if e.Component = "Memory"
        then { m.memory with hasError := true, errorMessage := e.Message, lastError := e.Timestamp }
        else m.memory) ∧
    ((mainUpdate now m (Msg.errorMsg e)).1).disk =
      (if e.Component = "Disk"
        then { m.disk with hasError := true, errorMessage := e.Message, lastError := e.Timestamp }
        else m.disk) ∧
    ((mainUpdate now m (Msg.errorMsg e)).1).network =
      (if e.Component = "Network"
        then { m.network with hasError := true, errorMessage := e.Message, lastError := e.Timestamp }
        else m.network) ∧
    ((mainUpdate now m (Msg.errorMsg e)).1).focused = m.focused ∧
    ((mainUpdate now m (Msg.errorMsg e)).1).showHelp = m.showHelp ∧
    ((mainUpdate now m (Msg.errorMsg e)).1).width = m.width ∧
    ((mainUpdate now m (Msg.errorMsg e)).1).height = m.height := by
  by_cases h1 : e.Component = "CPU"
  · simp [mainUpdate, cpuUpdate, h1]
  by_cases h2 : e.Component = "Memory"
  · simp [mainUpdate, memoryUpdate, h1, h2]
  by_cases h3 : e.Component = "Disk"
  · simp [mainUpdate, diskUpdate, h1, h2, h3]
  by_cases h4 : e.Component = "Network"
  · simp [mainUpdate, networkUpdate, h1, h2, h3, h4]
  · simp [mainUpdate, h1, h2, h3, h4]

/-- C3: a successful sample unconditionally clears, for the component,
error flag and message and replaces its snapshot data, for every
component model state (in particular any state reached by arbitrarily
many preceding failures, over which the state is quantified). -/
theorem success_clears_error (now : ℚ) (c : CPUModel) (mm : MemoryModel)
    (d : DiskModel) (n : NetworkModel) (ci : CPUInfo) (mi : MemoryInfo)
    (di : List DiskInfo) (ni : List NetworkInfo) :
    ((cpuUpdate c (Msg.cpuUpdateMsg ci)).hasError = false ∧
     (cpuUpdate c (Msg.cpuUpdateMsg ci)).errorMessage = "" ∧
     (cpuUpdate c (Msg.cpuUpdateMsg ci)).usage = ci.Usage ∧
     (cpuUpdate c (Msg.cpuUpdateMsg ci)).total = ci.Total ∧
     (cpuUpdate c (Msg.cpuUpdateMsg ci)).cores = ci.Cores) ∧
    ((memoryUpdate mm (Msg.memoryUpdateMsg mi)).hasError = false ∧
     (memoryUpdate mm (Msg.memoryUpdateMsg mi)).errorMessage = "" ∧
     (memoryUpdate mm (Msg.memoryUpdateMsg mi)).total = mi.Total ∧
     (memoryUpdate mm (Msg.memoryUpdateMsg mi)).used = mi.Used ∧
     (memoryUpdate mm (Msg.memoryUpdateMsg mi)).available = mi.Available ∧
     (memoryUpdate mm (Msg.memoryUpdateMsg mi)).swap = mi.Swap) ∧
    ((diskUpdate now d (Msg.diskUpdateMsg di)).hasError = false ∧
     (diskUpdate now d (Msg.diskUpdateMsg di)).errorMessage = "" ∧
     (diskUpdate now d (Msg.diskUpdateMsg di)).filesystems = di) ∧
    ((networkUpdate now n (Msg.networkUpdateMsg ni)).hasError = false ∧
     (networkUpdate now n (Msg.networkUpdateMsg ni)).errorMessage = "" ∧
     (networkUpdate now n (Msg.networkUpdateMsg ni)).interfaces = ni ∧
     (networkUpdate now n (Msg.networkUpdateMsg ni)).previousData = n.interfaces) := by
  refine ⟨⟨?_, ?_, ?_, ?_, ?_⟩, ⟨rfl, rfl, rfl, rfl, rfl, rfl⟩, ⟨rfl, rfl, rfl⟩,
    ⟨?_, ?_, ?_, ?_⟩⟩ <;>
    first
      | (unfold cpuUpdate; dsimp only; split <;> rfl)
      | (unfold networkUpdate; dsimp only; split <;> rfl)

/-- C4: a failed sample leaves the stored resource data of the CPU model
(usage, total, cores, and the history) unchanged, yet the rendered view
in the error state is exactly the padded fallback text — an explicit
error line, an unavailability notice and `N/A` placeholders — whose
content does not depend on the retained stale numbers. -/
theorem cpu_error_keeps_data_shows_fallback (c : CPUModel) (e : SystemError)
    (he : e.Component = "CPU") :
    ((cpuUpdate c (Msg.errorMsg e)).usage = c.usage ∧
     (cpuUpdate c (Msg.errorMsg e)).total = c.total ∧
     (cpuUpdate c (Msg.errorMsg e)).cores = c.cores ∧
     (cpuUpdate c (Msg.errorMsg e)).history = c.history) ∧
    (cpuUpdate c (Msg.errorMsg e)).hasError = true ∧
    cpuView (cpuUpdate c (Msg.errorMsg e)) =
      String.intercalate "\n" (padSections
        ["CPU Usage", "Error: " ++ e.Message, "CPU data unavailable",
         "Total: N/A", "Cores: N/A"] c.height) := by
  simp [cpuUpdate, he, cpuView, RenderHeader, RenderErrorText, RenderMutedText]

/-- C4 witness: the error-retention theorem instantiated at a CPU model
holding the data 25 percent and 75 percent over two cores and at a
concrete permission error. -/
theorem cpu_error_keeps_data_witness :
    ((cpuUpdate cpuModelSample (Msg.errorMsg cpuErrSample)).usage = cpuModelSample.usage ∧
     (cpuUpdate cpuModelSample (Msg.errorMsg cpuErrSample)).total = cpuModelSample.total ∧
     (cpuUpdate cpuModelSample (Msg.errorMsg cpuErrSample)).cores = cpuModelSample.cores ∧
     (cpuUpdate cpuModelSample (Msg.errorMsg cpuErrSample)).history = cpuModelSample.history) ∧
    (cpuUpdate cpuModelSample (Msg.errorMsg cpuErrSample)).hasError = true ∧
    cpuView (cpuUpdate cpuModelSample (Msg.errorMsg cpuErrSample)) =
      String.intercalate "\n" (padSections
        ["CPU Usage", "Error: " ++ cpuErrSample.Message, "CPU data unavailable",
         "Total: N/A", "Cores: N/A"] cpuModelSample.height) :=
  cpu_error_keeps_data_shows_fallback cpuModelSample cpuErrSample rfl

/-- C9: with the default key map, the manual-refresh key produces the
model unchanged together with exactly the batch of the four per-resource
collection commands (`collectAllDataCmd`), and a tick produces the model
unchanged together with that same `collectAllDataCmd` plus only the
re-arming of the ticker — so the sample-result events fed back to the
reducer have the same form in both cases, and the refresh key mutates no
resource data and no focus state. -/
theorem refresh_round_matches_tick_round (now : ℚ) (m : MainModel)
    (hk : m.keys = DefaultKeyMap) :
    mainUpdate now m (Msg.key "r") = (m, Cmd.batch [collectAllDataCmd]) ∧
    mainUpdate now m Msg.tick = (m, Cmd.batch [collectAllDataCmd, tickCmd m]) := by
  constructor
  · simp [mainUpdate, hk, DefaultKeyMap, containsKey]
  · rfl

/-- C9 witness: the refresh/tick equivalence instantiated at the
freshly constructed main model. -/
theorem refresh_round_matches_tick_round_witness :
    mainUpdate 0 NewMainModel (Msg.key "r") = (NewMainModel, Cmd.batch [collectAllDataCmd]) ∧
    mainUpdate 0 NewMainModel Msg.tick =
      (NewMainModel, Cmd.batch [collectAllDataCmd, tickCmd NewMainModel]) :=
  refresh_round_matches_tick_round 0 NewMainModel rfl

/-- Pushing one sample onto a history row within the bound keeps the
row within the bound. -/
theorem pushHistory_length_le (row : List ℚ) (u : ℚ) (maxHistory : ℕ)
    (h : row.length ≤ maxHistory) :
    (pushHistory row u maxHistory).length ≤ maxHistory := by
  unfold pushHistory
  dsimp only
  split <;> simp_all

/-- The per-core history loop keeps every row within the bound. -/
theorem updateHist_length_le (us : List ℚ) (hist : List (List ℚ)) (maxHistory : ℕ)
    (h : ∀ r ∈ hist, r.length ≤ maxHistory) :
    ∀ r ∈ updateHist hist us maxHistory, r.length ≤ maxHistory := by
  induction us generalizing hist with
  | nil =>
    intro r hr
    rw [show updateHist hist [] maxHistory = hist from by cases hist <;> rfl] at hr
    exact h r hr
  | cons u us ih =>
    intro r hr
    cases hist with
    | nil => simp [updateHist] at hr
    | cons row rest =>
      rw [show updateHist (row :: rest) (u :: us) maxHistory =
          pushHistory row u maxHistory :: updateHist rest us maxHistory from rfl] at hr
      rcases List.mem_cons.mp hr with rfl | hr
      · exact pushHistory_length_le row u maxHistory (h row (List.mem_cons_self _ _))
      · exact ih rest (fun r hr => h r (List.mem_cons_of_mem _ hr)) r hr

/-- One successful CPU update preserves the history bound and the bound
itself. -/
theorem cpuUpdate_history_invariant (m : CPUModel) (info : CPUInfo)
    (h : ∀ r ∈ m.history, r.length ≤ m.maxHistory) :
    (cpuUpdate m (Msg.cpuUpdateMsg info)).maxHistory = m.maxHistory ∧
    ∀ r ∈ (cpuUpdate m (Msg.cpuUpdateMsg info)).history, r.length ≤ m.maxHistory := by
  unfold cpuUpdate
  dsimp only
  split
  · refine ⟨rfl, ?_⟩
    intro r hr
    refine updateHist_length_le _ _ _ ?_ r hr
    split
    · intro r hr
      rw [List.eq_of_mem_replicate hr]
      simp
    · exact h
  · exact ⟨rfl, h⟩

/-- C10: starting from the fresh CPU model, after any sequence of
successful CPU update messages the history row of every core holds at most 60
entries (the default `maxHistory`); and once a row has reached the
bound, the next push drops exactly the oldest entry and appends the new
sample at the recent end. -/
theorem cpu_history_bounded :
    (∀ (msgs : List CPUInfo) (r : List ℚ),
        r ∈ (msgs.foldl (fun m info => cpuUpdate m (Msg.cpuUpdateMsg info)) NewCPUModel).history →
        r.length ≤ 60) ∧
    (∀ (row : List ℚ) (u : ℚ), row.length = 60 →
        pushHistory row u 60 = row.tail ++ [u]) := by
  constructor
  · have key : ∀ (msgs : List CPUInfo) (m : CPUModel),
        m.maxHistory = 60 → (∀ r ∈ m.history, r.length ≤ 60) →
        (msgs.foldl (fun m info => cpuUpdate m (Msg.cpuUpdateMsg info)) m).maxHistory = 60 ∧
        ∀ r ∈ (msgs.foldl (fun m info => cpuUpdate m (Msg.cpuUpdateMsg info)) m).history,
          r.length ≤ 60 := by
      intro msgs
      induction msgs with
      | nil => intro m h1 h2; exact ⟨h1, h2⟩
      | cons info rest ih =>
        intro m h1 h2
        simp only [List.foldl_cons]
        have hinv := cpuUpdate_history_invariant m info (by rw [h1]; exact h2)
        exact ih _ (by rw [hinv.1, h1]) (by rw [← h1]; exact hinv.2)
    intro msgs r hr
    exact (key msgs NewCPUModel rfl (by intro r hr; simp [NewCPUModel] at hr)).2 r hr
  · intro row u h60
    unfold pushHistory
    dsimp only
    rw [if_pos (by simp [h60])]
    cases row with
    | nil => simp at h60
    | cons a as => simp

/-- C10 witness: one successful one-core update from the fresh model
leaves a single-entry row within the bound, and a saturated 60-entry row
receiving one more sample drops its oldest entry. -/
theorem cpu_history_bounded_witness :
    ([(5 : ℚ)].length ≤ 60) ∧
    pushHistory (List.replicate 60 (0 : ℚ)) 1 60 = (List.replicate 60 (0 : ℚ)).tail ++ [1] := by
  constructor
  · refine cpu_history_bounded.1 [cpuInfoSample] [(5 : ℚ)] ?_
    have hhist :
        ([cpuInfoSample].foldl (fun m info => cpuUpdate m (Msg.cpuUpdateMsg info))
          NewCPUModel).history = [[(5 : ℚ)]] := rfl
    rw [hhist]
    exact List.mem_singleton.mpr rfl
  · exact cpu_history_bounded.2 (List.replicate 60 (0 : ℚ)) 1 (by simp)

/-- Appending one previous-snapshot entry to the lookup map: the new
entry wins for its own interface name, everything else defers to the
earlier entries. -/
theorem buildPrevMap_append (l : List NetworkInfo) (e : NetworkInfo) (n : String) :
    buildPrevMap (l ++ [e]) n = if n = e.Interface then some e else buildPrevMap l n := by
  unfold buildPrevMap
  rw [List.foldl_append]
  rfl

/-- A successful lookup in the previous-snapshot map returns an entry
carrying the looked-up interface name. -/
theorem buildPrevMap_interface (l : List NetworkInfo) (n : String) (p : NetworkInfo)
    (h : buildPrevMap l n = some p) : p.Interface = n := by
  induction l using List.reverseRecOn with
  | nil => simp [buildPrevMap] at h
  | append_singleton cs e ih =>
    rw [buildPrevMap_append] at h
    split at h
    · rename_i hne
      injection h with h
      rw [← h]
      exact hne.symm
    · exact ih h

/-- Unrolling the rate-map fold of `calculateRates` one current entry
at a time, seen at a single key. -/
theorem calculateRates_append (previous cs : List NetworkInfo) (c : NetworkInfo) (n : String) :
    calculateRates previous (cs ++ [c]) n =
      if c.Interface = n then
        match rateFor previous c with
        | some v => some v
        | none => calculateRates previous cs n
      else calculateRates previous cs n := by
  unfold calculateRates
  rw [List.foldl_append]
  simp only [List.foldl_cons, List.foldl_nil]
  by_cases hcn : c.Interface = n
  · subst hcn
    rcases h : buildPrevMap previous c.Interface with _ | prev
    · simp [rateFor, h]
    · by_cases hdt : 0 < c.Timestamp - prev.Timestamp
      · have hdt2 : prev.Timestamp < c.Timestamp := by linarith
        simp [rateFor, h, hdt, hdt2]
      · have hdt2 : ¬ prev.Timestamp < c.Timestamp := fun hx => hdt (by linarith)
        simp [rateFor, h, hdt, hdt2]
  · have hnc : ¬ n = c.Interface := fun hx => hcn hx.symm
    rcases h : buildPrevMap previous c.Interface with _ | prev
    · simp [rateFor, h, hcn]
    · by_cases hdt : 0 < c.Timestamp - prev.Timestamp
      · have hdt2 : prev.Timestamp < c.Timestamp := by linarith
        simp [rateFor, h, hdt, hdt2, hcn, hnc]
      · have hdt2 : ¬ prev.Timestamp < c.Timestamp := fun hx => hdt (by linarith)
        simp [rateFor, h, hdt, hdt2, hcn]

/-- Unrolling the last-writer reformulation one current entry at a
time. -/
theorem lastRated_append (previous cs : List NetworkInfo) (c : NetworkInfo) (n : String) :
    lastRated previous (cs ++ [c]) n =
      if c.Interface = n then
        match rateFor previous c with
        | some v => some v
        | none => lastRated previous cs n
      else lastRated previous cs n := by
  unfold lastRated
  rw [List.foldl_append]
  rfl

/-- The rate map of `calculateRates`, read at one key, is the rate of
the last current entry for that interface name that produced one. -/
theorem calculateRates_eq_lastRated (previous current : List NetworkInfo) (n : String) :
    calculateRates previous current n = lastRated previous current n := by
  induction current using List.reverseRecOn with
  | nil => rfl
  | append_singleton cs c ih => rw [calculateRates_append, lastRated_append, ih]

/-- When the last current entry for an interface name produces a rate,
that rate is the one the map reports for the name. -/
theorem lastRated_eq_of_last (previous current : List NetworkInfo) (n : String)
    (c : NetworkInfo) (v : NetworkStats)
    (hc : buildPrevMap current n = some c) (hv : rateFor previous c = some v) :
    lastRated previous current n = some v := by
  induction current using List.reverseRecOn with
  | nil => simp [buildPrevMap] at hc
  | append_singleton cs e ih =>
    rw [buildPrevMap_append] at hc
    rw [lastRated_append]
    by_cases hne : n = e.Interface
    · rw [if_pos hne] at hc
      injection hc with hc
      subst hc
      rw [if_pos hne.symm]
      simp [hv]
    · rw [if_neg hne] at hc
      rw [if_neg (fun hx => hne hx.symm)]
      exact ih hc

/-- C1: for every pair of snapshot lists and every interface name whose
previous and current measurements (in the Go map sense: the last entry
carrying the name in each list) are separated by a strictly positive
time difference, `calculateRates` reports for that name exactly the
counter delta divided by the time difference in each direction whose
counter did not decrease, and exactly 0 in a direction whose counter
decreased (wraparound) — the function is total, so no error is ever
raised. -/
theorem calculateRates_correct (previous current : List NetworkInfo) (n : String)
    (p c : NetworkInfo)
    (hp : buildPrevMap previous n = some p)
    (hc : buildPrevMap current n = some c)
    (hdt : p.Timestamp < c.Timestamp) :
    calculateRates previous current n = some
      { SendRate := if p.BytesSent ≤ c.BytesSent
          then ((c.BytesSent - p.BytesSent : ℕ) : ℚ) / (c.Timestamp - p.Timestamp) else 0
        RecvRate := if p.BytesRecv ≤ c.BytesRecv
          then ((c.BytesRecv - p.BytesRecv : ℕ) : ℚ) / (c.Timestamp - p.Timestamp) else 0 } := by
  have hcn : c.Interface = n := buildPrevMap_interface current n c hc
  have hv : rateFor previous c = some
      { SendRate := if p.BytesSent ≤ c.BytesSent
          then ((c.BytesSent - p.BytesSent : ℕ) : ℚ) / (c.Timestamp - p.Timestamp) else 0
        RecvRate := if p.BytesRecv ≤ c.BytesRecv
          then ((c.BytesRecv - p.BytesRecv : ℕ) : ℚ) / (c.Timestamp - p.Timestamp) else 0 } := by
    unfold rateFor
    rw [hcn, hp]
    dsimp only
    rw [if_pos (by linarith : (0 : ℚ) < c.Timestamp - p.Timestamp)]
  rw [calculateRates_eq_lastRated]
  exact lastRated_eq_of_last previous current n c _ hc hv

/-- C1 witness: the scenario from the spec — two measurements of `eth0` one
second apart with 1024 more bytes sent and 2048 more received — yields
exactly 1024 B/s send rate and 2048 B/s receive rate. -/
theorem calculateRates_correct_witness :
    calculateRates [ethPrev] [ethCurr] "eth0" = some { SendRate := 1024, RecvRate := 2048 } := by
  have h := calculateRates_correct [ethPrev] [ethCurr] "eth0" ethPrev ethCurr rfl rfl
    (by norm_num [ethPrev, ethCurr])
  rw [h]
  norm_num [ethPrev, ethCurr]
